import Mathlib

/-!
Shallow embedding of `src/lib/parser.go` of the registry-factory
repository, together with theorems checking the natural-language
specification against it.

Modelling conventions:
* Go strings are Lean `String`s; where Go iterates bytes we iterate
  characters (all inputs of interest are ASCII, where the two coincide).
* `http.Request` is the `Request` structure below.  Its body is a one-shot
  readable stream, modelled by `Body`: the bytes still unread, plus an
  optional read error.  `ioutil.ReadAll` is `readAllB`, which consumes the
  stream.
* `http.Header.Get`/`Set` are `headerGet`/`headerSet` over an association
  list keyed by the canonical header names used in the source.
* Go maps (`meta.Metadata`) are association lists with `mapGet`/`mapSet`.
* `encoding/json.Unmarshal` into the source's `npmPackMeta` struct is
  `unmarshalNpm`: a full JSON parser (`parseJson`, fuel-indexed with an
  always-sufficient fuel bound) followed by the field extraction Go's
  decoder performs (missing fields give zero values, type mismatches and
  malformed input give errors; error *messages* are model-chosen, the Go
  library's texts differ).
* `Parser` function values are Lean functions `Request → Request × Except
  String RequestMeta`: the returned `Request` is the (possibly mutated)
  request object, the `Except` is Go's `(RequestMeta, error)` pair.
* The chain's singly linked list of wrappers is a Lean `List Parser`
  (`Register` is the only way the source grows the list, and it never
  inserts a nil parser, so the `p.parser != nil` guard of the loop is
  vacuous).  A Go nil `Parser` argument is `Option.none`.
-/

namespace RegistryFactory

/-! ## Go string helpers -/

/-- Character-level prefix test (Go `strings.HasPrefix` on byte slices). -/
def isPrefixL : List Char → List Char → Bool
  | [], _ => true
  | _ :: _, [] => false
  | a :: as, b :: bs => a = b && isPrefixL as bs

/-- Substring search: does the second list occur inside the first?
(Go `strings.Contains`.) -/
def hasSubL (nd : List Char) : List Char → Bool
  | [] => nd.isEmpty
  | c :: t => isPrefixL nd (c :: t) || hasSubL nd t

/-- Go `strings.Contains s sub`. -/
def containsSub (s sub : String) : Bool :=
  hasSubL sub.toList s.toList

/-- The characters Go `strings.TrimSpace` removes (ASCII range). -/
def goIsSpace (c : Char) : Bool :=
  c = ' ' || c = '\t' || c = '\n' || c = '\x0b' || c = '\x0c' || c = '\r'

/-- Go `strings.TrimSpace`. -/
def trimSpaceGo (s : String) : String :=
  String.mk (((s.toList.dropWhile goIsSpace).reverse.dropWhile goIsSpace).reverse)

/-- Go `strings.TrimPrefix s pre`. -/
def trimPrefixGo (s pre : String) : String :=
  if isPrefixL pre.toList s.toList then String.mk (s.toList.drop pre.toList.length) else s

/-- Helper for `goSplitSpace`: accumulate the current field (reversed). -/
def splitSpAux : List Char → List Char → List String
  | [], acc => [String.mk acc.reverse]
  | c :: cs, acc =>
    if c = ' ' then String.mk acc.reverse :: splitSpAux cs []
    else splitSpAux cs (c :: acc)

/-- Go `strings.Split s " "` (split on every single space; never empty). -/
def goSplitSpace (s : String) : List String :=
  splitSpAux s.toList []

/-- First element of a split result (Go `commands[0]`; `goSplitSpace`
never returns an empty list, so the default is unreachable). -/
def headOr : List String → String
  | [] => ""
  | s :: _ => s

/-- Go `strings.Join xs sep`. -/
def goJoin (sep : String) : List String → String
  | [] => ""
  | [s] => s
  | s :: rest => s ++ sep ++ goJoin sep rest

/-- Go `strconv.Itoa` on the (non-negative) lengths the source feeds it. -/
def itoa (n : Nat) : String := Nat.repr n

/-! ## JSON values and parser (model of `encoding/json` input handling) -/

/-- A parsed JSON value.  Number lexemes are kept verbatim; the source
never looks at numeric values. -/
inductive Jval where
  | jnull : Jval
  | jbool : Bool → Jval
  | jnum : String → Jval
  | jstr : String → Jval
  | jarr : List Jval → Jval
  | jobj : List (String × Jval) → Jval

/-- JSON insignificant whitespace. -/
def jsonWs (c : Char) : Bool :=
  c = ' ' || c = '\t' || c = '\n' || c = '\r'

/-- Skip insignificant whitespace. -/
def skipWs (cs : List Char) : List Char := cs.dropWhile jsonWs

/-- Hexadecimal digit value. -/
def hexDigit (c : Char) : Option Nat :=
  if '0' ≤ c ∧ c ≤ '9' then some (c.toNat - '0'.toNat)
  else if 'a' ≤ c ∧ c ≤ 'f' then some (c.toNat - 'a'.toNat + 10)
  else if 'A' ≤ c ∧ c ≤ 'F' then some (c.toNat - 'A'.toNat + 10)
  else none

/-- Single-character JSON string escapes. -/
def escChar (e : Char) : Option Char :=
  if e = '"' then some '"'
  else if e = '\\' then some '\\'
  else if e = '/' then some '/'
  else if e = 'b' then some '\x08'
  else if e = 'f' then some '\x0c'
  else if e = 'n' then some '\n'
  else if e = 'r' then some '\r'
  else if e = 't' then some '\t'
  else none

/-- Parse the rest of a JSON string literal (opening quote already
consumed): content characters and closing quote.  Fuel-indexed; each step
consumes at least one character, so fuel `length + 1` always suffices. -/
def pStrRest : Nat → List Char → Option (List Char × List Char)
  | 0, _ => none
  | _ + 1, [] => none
  | fuel + 1, ch :: cs =>
    if ch = '"' then some ([], cs)
    else if ch = '\\' then
      match cs with
      | [] => none
      | e :: cs2 =>
        if e = 'u' then
          match cs2 with
          | a :: b :: c2 :: d :: cs6 =>
            match hexDigit a, hexDigit b, hexDigit c2, hexDigit d with
            | some ha, some hb, some hc, some hd =>
              match pStrRest fuel cs6 with
              | some (out, r) =>
                some (Char.ofNat (((ha * 16 + hb) * 16 + hc) * 16 + hd) :: out, r)
              | none => none
            | _, _, _, _ => none
          | _ => none
        else
          match escChar e with
          | some ch2 =>
            match pStrRest fuel cs2 with
            | some (out, r) => some (ch2 :: out, r)
            | none => none
          | none => none
    else if ch.toNat < 32 then none
    else
      match pStrRest fuel cs with
      | some (out, r) => some (ch :: out, r)
      | none => none

/-- Decimal digit test. -/
def isDigitCh (c : Char) : Bool := '0' ≤ c && c ≤ '9'

/-- Optional fraction part of a JSON number. -/
def pFrac (cs : List Char) : Option (List Char × List Char) :=
  match cs with
  | '.' :: r =>
    let ds := r.takeWhile isDigitCh
    if ds.isEmpty then none else some ('.' :: ds, r.dropWhile isDigitCh)
  | _ => some ([], cs)

/-- Optional exponent part of a JSON number. -/
def pExp (cs : List Char) : Option (List Char × List Char) :=
  match cs with
  | [] => some ([], [])
  | e :: r =>
    if e = 'e' || e = 'E' then
      let sr : List Char × List Char :=
        match r with
        | '+' :: r2 => (['+'], r2)
        | '-' :: r2 => (['-'], r2)
        | _ => ([], r)
      let ds := sr.2.takeWhile isDigitCh
      if ds.isEmpty then none
      else some (e :: sr.1 ++ ds, sr.2.dropWhile isDigitCh)
    else some ([], e :: r)

/-- JSON number (lexeme and rest), per the JSON grammar (no leading zeros,
mandatory digits after `.` and the exponent marker). -/
def pNum (cs : List Char) : Option (List Char × List Char) :=
  let sc : List Char × List Char :=
    match cs with
    | '-' :: r => (['-'], r)
    | _ => ([], cs)
  match sc.2 with
  | [] => none
  | d :: rest1 =>
    if isDigitCh d then
      let ic : List Char × List Char :=
        if d = '0' then ([d], rest1)
        else (sc.2.takeWhile isDigitCh, sc.2.dropWhile isDigitCh)
      match pFrac ic.2 with
      | none => none
      | some (fp, cs3) =>
        match pExp cs3 with
        | none => none
        | some (ep, cs4) => some (sc.1 ++ ic.1 ++ fp ++ ep, cs4)
    else none

/-- Consume an expected literal tail (`rue`, `alse`, `ull`). -/
def dropLit : List Char → List Char → Option (List Char)
  | [], cs => some cs
  | l :: ls, c :: cs => if c = l then dropLit ls cs else none
  | _ :: _, [] => none

mutual

/-- Parse one JSON value (leading whitespace allowed).  Fuel-indexed; the
top-level entry point supplies a fuel bound that is always sufficient. -/
def pVal : Nat → List Char → Option (Jval × List Char)
  | 0, _ => none
  | fuel + 1, cs =>
    match skipWs cs with
    | [] => none
    | c :: rest =>
      if c = '"' then
        match pStrRest (rest.length + 1) rest with
        | some (out, r) => some (Jval.jstr (String.mk out), r)
        | none => none
      else if c = '\x7b' then pObjBody fuel rest
      else if c = '[' then pArrBody fuel rest
      else if c = 't' then
        match dropLit ['r', 'u', 'e'] rest with
        | some r => some (Jval.jbool true, r)
        | none => none
      else if c = 'f' then
        match dropLit ['a', 'l', 's', 'e'] rest with
        | some r => some (Jval.jbool false, r)
        | none => none
      else if c = 'n' then
        match dropLit ['u', 'l', 'l'] rest with
        | some r => some (Jval.jnull, r)
        | none => none
      else
        match pNum (c :: rest) with
        | some (lex, r) => some (Jval.jnum (String.mk lex), r)
        | none => none

/-- Parse an object body (opening brace already consumed). -/
def pObjBody : Nat → List Char → Option (Jval × List Char)
  | 0, _ => none
  | fuel + 1, cs =>
    match skipWs cs with
    | '\x7d' :: rest => some (Jval.jobj [], rest)
    | other =>
      match pMembers fuel other with
      | some (fs, r) => some (Jval.jobj fs, r)
      | none => none

/-- Parse one or more `"key": value` members and the closing brace. -/
def pMembers : Nat → List Char → Option (List (String × Jval) × List Char)
  | 0, _ => none
  | fuel + 1, cs =>
    match skipWs cs with
    | '"' :: rest =>
      match pStrRest (rest.length + 1) rest with
      | some (key, r1) =>
        match skipWs r1 with
        | ':' :: r2 =>
          match pVal fuel r2 with
          | some (v, r3) =>
            match skipWs r3 with
            | ',' :: r4 =>
              match pMembers fuel r4 with
              | some (fs, r5) => some ((String.mk key, v) :: fs, r5)
              | none => none
            | '\x7d' :: r4 => some ([(String.mk key, v)], r4)
            | _ => none
          | none => none
        | _ => none
      | none => none
    | _ => none

/-- Parse an array body (opening bracket already consumed). -/
def pArrBody : Nat → List Char → Option (Jval × List Char)
  | 0, _ => none
  | fuel + 1, cs =>
    match skipWs cs with
    | ']' :: rest => some (Jval.jarr [], rest)
    | other =>
      match pElems fuel other with
      | some (vs, r) => some (Jval.jarr vs, r)
      | none => none

/-- Parse one or more array elements and the closing bracket. -/
def pElems : Nat → List Char → Option (List Jval × List Char)
  | 0, _ => none
  | fuel + 1, cs =>
    match pVal fuel cs with
    | some (v, r1) =>
      match skipWs r1 with
      | ',' :: r2 =>
        match pElems fuel r2 with
        | some (vs, r3) => some (v :: vs, r3)
        | none => none
      | ']' :: r2 => some ([v], r2)
      | _ => none
    | none => none

end

/-- Parse a complete JSON document: one value, then only whitespace.  At
most three fuel units are spent between consecutive input characters, so
`3 * length + 6` fuel is always sufficient. -/
def parseJson (s : String) : Option Jval :=
  match pVal (3 * s.length + 6) s.toList with
  | some (v, rest) => if (skipWs rest).isEmpty then some v else none
  | none => none

/-! ## Data model (`RequestMeta`, `npmPackMeta`, `http.Request`) -/

/-- The constant `registryTypeNpm` of the source. -/
def registryTypeNpm : String := "npm"

/-- The constant `registryTypeImage` of the source (its value is the
string `"harbor"`; the spec calls this enumerated tag `image`). -/
def registryTypeImage : String := "harbor"

/-- `RequestMeta` of the source: the output of a detection attempt.  The
Go zero value `RequestMeta\x7b\x7d` is `RegistryType = ""`,
`HasHit = false`, `Metadata = []`. -/
structure RequestMeta where
  RegistryType : String
  HasHit : Bool
  Metadata : List (String × String)
  deriving DecidableEq

/-- `npmPackMeta` of the source, flattened: `tagsLatest` is the nested
`Tags.Latest` field (JSON path `dist-tags.latest`). -/
structure npmPackMeta where
  tagsLatest : String
  deriving DecidableEq

/-- The request body: a one-shot readable stream.  `contents` are the
bytes not yet read; `readErr` makes a full read fail. -/
structure Body where
  contents : String
  readErr : Option String
  deriving DecidableEq

/-- The part of Go's `http.Request` the source touches: headers, the URL
(`req.URL.String()` is the `url` field), the body stream, and the
`ContentLength` field. -/
structure Request where
  headers : List (String × String)
  url : String
  body : Body
  contentLength : Int
  deriving DecidableEq

/-- `http.Header.Get`: first value under the (canonical) key, `""` when
absent. -/
def headerGet (hs : List (String × String)) (k : String) : String :=
  match hs with
  | [] => ""
  | p :: rest => if p.1 = k then p.2 else headerGet rest k

/-- `http.Header.Set`: replace all values under the key by the one given. -/
def headerSet (hs : List (String × String)) (k v : String) : List (String × String) :=
  hs.filter (fun p => p.1 != k) ++ [(k, v)]

/-- Go map lookup on `Metadata`. -/
def mapGet (m : List (String × String)) (k : String) : Option String :=
  match m with
  | [] => none
  | p :: rest => if p.1 = k then some p.2 else mapGet rest k

/-- Go map assignment `m[k] = v` on `Metadata`. -/
def mapSet (m : List (String × String)) (k v : String) : List (String × String) :=
  match m with
  | [] => [(k, v)]
  | p :: rest => if p.1 = k then (k, v) :: rest else p :: mapSet rest k v

/-- `ioutil.ReadAll(req.Body)`: returns the bytes (or the stream's read
error) and the stream as it is left afterwards — exhausted, with a
persisting error on the failing stream. -/
def readAllB (b : Body) : Except String String × Body :=
  match b.readErr with
  | some e => (Except.error e, { contents := "", readErr := some e })
  | none => (Except.ok b.contents, { contents := "", readErr := none })

/-- `json.Unmarshal(buf, &npmPackMeta\x7b\x7d)`: parse the document, then
extract `dist-tags.latest` the way Go's decoder fills the struct — missing
members and JSON `null` leave the zero value, a member of the wrong shape
is an error, a non-object document (other than `null`) is an error.
Duplicate keys: the last occurrence wins. -/
def jObjGet (fs : List (String × Jval)) (k : String) : Option Jval :=
  match fs.reverse.find? (fun p => p.1 = k) with
  | some p => some p.2
  | none => none

/-- See `jObjGet`; the decoding half of `json.Unmarshal` for `npmPackMeta`. -/
def unmarshalNpm (s : String) : Except String npmPackMeta :=
  match parseJson s with
  | none => Except.error "invalid JSON"
  | some Jval.jnull => Except.ok { tagsLatest := "" }
  | some (Jval.jobj fs) =>
    match jObjGet fs "dist-tags" with
    | none => Except.ok { tagsLatest := "" }
    | some Jval.jnull => Except.ok { tagsLatest := "" }
    | some (Jval.jobj gs) =>
      match jObjGet gs "latest" with
      | none => Except.ok { tagsLatest := "" }
      | some Jval.jnull => Except.ok { tagsLatest := "" }
      | some (Jval.jstr t) => Except.ok { tagsLatest := t }
      | some _ => Except.error "cannot unmarshal latest into string"
    | some _ => Except.error "cannot unmarshal dist-tags into struct"
  | some _ => Except.error "cannot unmarshal document into struct"

/-! ## The detectors and the chain (`Parser`, `NpmParser`, `HarborParser`,
`ParserChain`) -/

/-- The `Parser` function type of the source.  The returned `Request` is
the request object after the call (Go mutates it through the pointer);
the `Except` is the `(RequestMeta, error)` return pair. -/
def Parser : Type := Request → Request × Except String RequestMeta

/-- `NpmParser` of the source, line for line. -/
def NpmParser : Parser := fun req =>
  let userAgent := headerGet req.headers "User-Agent"
  if containsSub userAgent "npm" then
    let npmCmd := headerGet req.headers "Referer"
    if 0 < npmCmd.length then
      let command := trimSpaceGo (headOr (goSplitSpace npmCmd))
      let meta : RequestMeta :=
        { RegistryType := registryTypeNpm
          HasHit := true
          Metadata :=
            mapSet (mapSet (mapSet (mapSet [] "command" command)
                "path" req.url)
                "extra" (trimSpaceGo (trimPrefixGo npmCmd command)))
                "session" (headerGet req.headers "Npm-Session") }
      if command = "publish" then
        match readAllB req.body with
        | (Except.error e, b2) => ({ req with body := b2 }, Except.error e)
        | (Except.ok buf, b2) =>
          match unmarshalNpm buf with
          | Except.error e => ({ req with body := b2 }, Except.error e)
          | Except.ok m =>
            let meta2 := { meta with Metadata := mapSet meta.Metadata "extra" m.tagsLatest }
            ({ req with
                body := { contents := buf, readErr := none }
                contentLength := (buf.length : Int)
                headers := headerSet req.headers "Content-Length" (itoa buf.length) },
              Except.ok meta2)
      else
        (req, Except.ok meta)
    else
      (req, Except.ok { RegistryType := "", HasHit := false, Metadata := [] })
  else
    (req, Except.ok { RegistryType := "", HasHit := false, Metadata := [] })

/-- `HarborParser` of the source: the unconditional fallback. -/
def HarborParser : Parser := fun req =>
  (req, Except.ok { RegistryType := registryTypeImage, HasHit := true, Metadata := [] })

/-- The loop of `ParserChain.Parse`, with the collected error messages as
an accumulator.  Exhaustion produces
`fmt.Errorf("%s:%s", "no hit", strings.Join(errs, ";"))`. -/
def parseLoopGo (req : Request) (errs : List String) :
    List Parser → Request × Except String RequestMeta
  | [] => (req, Except.error ("no hit" ++ ":" ++ goJoin ";" errs))
  | p :: rest =>
    match p req with
    | (req2, Except.error e) => parseLoopGo req2 (errs ++ [e]) rest
    | (req2, Except.ok meta) =>
      if meta.HasHit then (req2, Except.ok meta) else parseLoopGo req2 errs rest

/-- `ParserChain.Parse`: empty chain fails with `"no parsers"`, otherwise
walk the registered list. -/
def Parse (chain : List Parser) (req : Request) : Request × Except String RequestMeta :=
  match chain with
  | [] => (req, Except.error "no parsers")
  | p :: rest => parseLoopGo req [] (p :: rest)

/-- `ParserChain.Register`: the new chain and Go's returned error.  A nil
`Parser` value is `none`; a valid one is appended at the tail. -/
def Register (chain : List Parser) (p : Option Parser) : List Parser × Option String :=
  match p with
  | none => (chain, some "nil parser")
  | some q => (chain ++ [q], none)

/-- `ParserChain.Init`: reset to empty, register `NpmParser`, then
`HarborParser`; result chain and Go's returned error. -/
def Init : List Parser × Option String :=
  match Register [] (some NpmParser) with
  | (c1, some e) => (c1, some e)
  | (c1, none) => Register c1 (some HarborParser)

/-! ## Result inspection helpers and run mirrors -/

/-- Did the call return a hit?  `false` both on error and on a declined
(`HasHit = false`) result. -/
def hasHitOf : Except String RequestMeta → Bool
  | Except.ok m => m.HasHit
  | Except.error _ => false

/-- The returned metadata; the Go zero value on error. -/
def metaOf : Except String RequestMeta → RequestMeta
  | Except.ok m => m
  | Except.error _ => { RegistryType := "", HasHit := false, Metadata := [] }

/-- Mirror of one run of the chain: `true` when no detector along the run
reports a hit (each detector sees the request as left by its
predecessors). -/
def chainNoHit (req : Request) : List Parser → Bool
  | [] => true
  | p :: rest =>
    match p req with
    | (req2, Except.error _) => chainNoHit req2 rest
    | (req2, Except.ok meta) => !meta.HasHit && chainNoHit req2 rest

/-- Mirror of one run of the chain: the detector error messages recorded
before the first hit (all of them when no detector hits). -/
def chainErrors (req : Request) : List Parser → List String
  | [] => []
  | p :: rest =>
    match p req with
    | (req2, Except.error e) => e :: chainErrors req2 rest
    | (req2, Except.ok meta) => if meta.HasHit then [] else chainErrors req2 rest

/-! ## Concrete fixtures for witnesses and counterexamples -/

/-- An npm `publish` request with the spec's example manifest body. -/
def wreq1 : Request :=
  { headers := [("User-Agent", "npm/6.14.4 node/v10.15.0"), ("Referer", "publish"),
      ("Npm-Session", "abc123")]
    url := "/some-pkg"
    body := { contents := "\x7b\"dist-tags\":\x7b\"latest\":\"2.3.1\"\x7d\x7d", readErr := none }
    contentLength := 32 }

/-- An npm `publish` request with a truncated (malformed) manifest body. -/
def creq2x : Request :=
  { headers := [("User-Agent", "npm/6.14.4"), ("Referer", "publish npm-registry")]
    url := "/pkg2"
    body := { contents := "\x7b\"dist-tags\":", readErr := none }
    contentLength := 13 }

/-- An npm `publish` request whose body is valid JSON of the wrong shape. -/
def wreq2 : Request :=
  { headers := [("User-Agent", "npm/7.0.0"), ("Referer", "publish")]
    url := "/pkg2w"
    body := { contents := "[1,2]", readErr := none }
    contentLength := 5 }

/-- A request for exercising the chain fixtures. -/
def wreq3 : Request :=
  { headers := [("User-Agent", "curl/7.64.1")]
    url := "/v2/blobs"
    body := { contents := "", readErr := none }
    contentLength := 0 }

/-- A detector that always declines without error and without mutation. -/
def wDecl3 : Parser := fun r =>
  (r, Except.ok { RegistryType := "", HasHit := false, Metadata := [] })

/-- A request for the aggregation fixtures. -/
def wreq4 : Request :=
  { headers := [("User-Agent", "curl/8.0.0")]
    url := "/v2/manifests"
    body := { contents := "", readErr := none }
    contentLength := 0 }

/-- A detector that always fails with message `"boom"`. -/
def wBoom4 : Parser := fun r => (r, Except.error "boom")

/-- A detector that always declines, for the aggregation fixtures. -/
def wDecl4 : Parser := fun r =>
  (r, Except.ok { RegistryType := "", HasHit := false, Metadata := [] })

/-- A non-npm request (no npm marker in the client-identifying header). -/
def wreq5 : Request :=
  { headers := [("User-Agent", "docker/20.10.7"), ("Referer", "anything")]
    url := "/v2/library/alpine"
    body := { contents := "", readErr := none }
    contentLength := 0 }

/-- An npm `publish` request with a non-JSON body. -/
def creq6a : Request :=
  { headers := [("User-Agent", "npm/6.14.4"), ("Referer", "publish")]
    url := "/pkg6"
    body := { contents := "not json", readErr := none }
    contentLength := 8 }

/-- An npm request whose invocation string has a tab inside its first
space-delimited token. -/
def creq6b : Request :=
  { headers := [("User-Agent", "npm/6.14.4"), ("Referer", "a\tb c")]
    url := "/pkg6b"
    body := { contents := "", readErr := none }
    contentLength := 0 }

/-- The spec's example `install` request. -/
def wreq6 : Request :=
  { headers := [("User-Agent", "npm/6.14.4 node/v10.15.0"),
      ("Referer", "install some-pkg --save"), ("Npm-Session", "s-1")]
    url := "/some-pkg"
    body := { contents := "", readErr := none }
    contentLength := 0 }

/-- A request with the npm marker but no CLI-invocation header. -/
def wreq7 : Request :=
  { headers := [("User-Agent", "npm/6.14.4")]
    url := "/pkg7"
    body := { contents := "ignored", readErr := none }
    contentLength := 7 }

/-- A non-npm request for the non-match witness. -/
def wreq7b : Request :=
  { headers := [("User-Agent", "pip/21.0"), ("Referer", "install x")]
    url := "/pkg7b"
    body := { contents := "", readErr := none }
    contentLength := 0 }

/-- An npm `install` request with a body, for the frame condition. -/
def wreq10 : Request :=
  { headers := [("User-Agent", "npm/6.14.4"), ("Referer", "install left-pad"),
      ("Npm-Session", "sess")]
    url := "/left-pad"
    body := { contents := "\x7b\"should\":\"stay unread\"\x7d", readErr := none }
    contentLength := 24 }

/-! ## Helper lemmas -/

/-- Without the npm marker in `User-Agent`, `NpmParser` declines. -/
theorem npmParser_noMarker (req : Request)
    (h : containsSub (headerGet req.headers "User-Agent") "npm" = false) :
    NpmParser req = (req, Except.ok { RegistryType := "", HasHit := false, Metadata := [] }) := by
  simp [NpmParser, h]

/-- With an empty `Referer`, `NpmParser` declines, marker or not. -/
theorem npmParser_emptyCmd (req : Request)
    (h : headerGet req.headers "Referer" = "") :
    NpmParser req = (req, Except.ok { RegistryType := "", HasHit := false, Metadata := [] }) := by
  have hlen : ¬ 0 < (headerGet req.headers "Referer").length := by
    rw [h]; decide
  rcases Bool.eq_false_or_eq_true (containsSub (headerGet req.headers "User-Agent") "npm") with
    hm | hm
  · simp [NpmParser, hm, hlen]
  · simp [NpmParser, hm]

/-- The non-`publish` hit of `NpmParser`, with the attributes spelled
out. -/
theorem npmParser_nonpublish (req : Request)
    (h1 : containsSub (headerGet req.headers "User-Agent") "npm" = true)
    (h2 : 0 < (headerGet req.headers "Referer").length)
    (h3 : trimSpaceGo (headOr (goSplitSpace (headerGet req.headers "Referer"))) ≠ "publish") :
    NpmParser req = (req, Except.ok
      { RegistryType := registryTypeNpm
        HasHit := true
        Metadata :=
          [("command", trimSpaceGo (headOr (goSplitSpace (headerGet req.headers "Referer")))),
           ("path", req.url),
           ("extra", trimSpaceGo (trimPrefixGo (headerGet req.headers "Referer")
              (trimSpaceGo (headOr (goSplitSpace (headerGet req.headers "Referer")))))),
           ("session", headerGet req.headers "Npm-Session")] }) := by
  simp [NpmParser, h1, h2, h3, mapSet]

/-- The `publish` hit of `NpmParser` on a readable body whose manifest
decodes, with the mutated request spelled out. -/
theorem npmParser_publish_ok (req : Request) (t : String)
    (h1 : containsSub (headerGet req.headers "User-Agent") "npm" = true)
    (h2 : 0 < (headerGet req.headers "Referer").length)
    (h3 : trimSpaceGo (headOr (goSplitSpace (headerGet req.headers "Referer"))) = "publish")
    (h4 : req.body.readErr = none)
    (h5 : unmarshalNpm req.body.contents = Except.ok { tagsLatest := t }) :
    NpmParser req =
      ({ req with
          body := { contents := req.body.contents, readErr := none }
          contentLength := (req.body.contents.length : Int)
          headers := headerSet req.headers "Content-Length" (itoa req.body.contents.length) },
        Except.ok
          { RegistryType := registryTypeNpm
            HasHit := true
            Metadata := [("command", "publish"), ("path", req.url), ("extra", t),
              ("session", headerGet req.headers "Npm-Session")] }) := by
  simp [NpmParser, h1, h2, h3, readAllB, h4, h5, mapSet]

/-- The `publish` error of `NpmParser` on a readable body whose manifest
does not decode: the error is returned and the body is left exhausted. -/
theorem npmParser_publish_err (req : Request) (e : String)
    (h1 : containsSub (headerGet req.headers "User-Agent") "npm" = true)
    (h2 : 0 < (headerGet req.headers "Referer").length)
    (h3 : trimSpaceGo (headOr (goSplitSpace (headerGet req.headers "Referer"))) = "publish")
    (h4 : req.body.readErr = none)
    (h5 : unmarshalNpm req.body.contents = Except.error e) :
    NpmParser req = ({ req with body := { contents := "", readErr := none } }, Except.error e) := by
  simp [NpmParser, h1, h2, h3, readAllB, h4, h5]

/-- `headerSet` then `headerGet` on the same key gives the set value. -/
theorem headerGet_headerSet (hs : List (String × String)) (k v : String) :
    headerGet (headerSet hs k v) k = v := by
  induction hs with
  | nil => simp [headerSet, headerGet]
  | cons p rest ih =>
    by_cases h : p.1 = k
    · simpa [headerSet, headerGet, List.filter_cons, h] using ih
    · simpa [headerSet, headerGet, List.filter_cons, h] using ih

/-- A detector that always hits short-circuits the loop wherever it
stands, whatever follows it and whatever was recorded before. -/
theorem parseLoopGo_hit (B : Parser)
    (hB : ∀ r, ∃ m, (B r).2 = Except.ok m ∧ m.HasHit = true)
    (req : Request) (errs : List String) (l : List Parser) :
    parseLoopGo req errs (B :: l) = B req := by
  obtain ⟨mB, hB1, hB2⟩ := hB req
  have hBfull : B req = ((B req).1, Except.ok mB) := by
    rw [← hB1]
  rw [parseLoopGo, hBfull]
  simp [hB2]

/-- If no detector along the run hits, the loop returns the aggregate
"no hit" error carrying the accumulator followed by the run's recorded
messages. -/
theorem parseLoopGo_noHit (ps : List Parser) :
    ∀ (req : Request) (errs : List String), chainNoHit req ps = true →
      (parseLoopGo req errs ps).2 =
        Except.error ("no hit" ++ ":" ++ goJoin ";" (errs ++ chainErrors req ps)) := by
  induction ps with
  | nil => intro req errs _; simp [parseLoopGo, chainErrors]
  | cons p rest ih =>
    intro req errs h
    rcases hp : p req with ⟨req2, res⟩
    cases res with
    | error e =>
      have h2 : chainNoHit req2 rest = true := by
        simpa [chainNoHit, hp] using h
      have h3 := ih req2 (errs ++ [e]) h2
      simp [parseLoopGo, hp, chainErrors, h3]
    | ok meta =>
      have h2 : meta.HasHit = false ∧ chainNoHit req2 rest = true := by
        simpa [chainNoHit, hp] using h
      have h3 := ih req2 errs h2.2
      simp [parseLoopGo, hp, chainErrors, h2.1, h3]

/-! ## Claims -/

/-- C1: for every npm-matched request whose command attribute is
`"publish"` and whose body parses as a manifest containing a
`dist-tags.latest` string `t`, `NpmParser` hits, overwrites the `extra`
attribute with `t`, and re-installs the consumed bytes as a fresh readable
body on the request, so that a second full read returns exactly the
original bytes; both the `ContentLength` field and the `Content-Length`
header equal the buffered length. -/
theorem c1_publish_rebuffer (req : Request) (fs gs : List (String × Jval)) (t : String)
    (h1 : containsSub (headerGet req.headers "User-Agent") "npm" = true)
    (h2 : 0 < (headerGet req.headers "Referer").length)
    (h3 : trimSpaceGo (headOr (goSplitSpace (headerGet req.headers "Referer"))) = "publish")
    (h4 : req.body.readErr = none)
    (h5 : parseJson req.body.contents = some (Jval.jobj fs))
    (h6 : jObjGet fs "dist-tags" = some (Jval.jobj gs))
    (h7 : jObjGet gs "latest" = some (Jval.jstr t)) :
    hasHitOf (NpmParser req).2 = true
    ∧ mapGet (metaOf (NpmParser req).2).Metadata "extra" = some t
    ∧ readAllB (NpmParser req).1.body
        = (Except.ok req.body.contents, { contents := "", readErr := none })
    ∧ (NpmParser req).1.contentLength = (req.body.contents.length : Int)
    ∧ headerGet (NpmParser req).1.headers "Content-Length" = itoa req.body.contents.length := by
  have h5' : unmarshalNpm req.body.contents = Except.ok { tagsLatest := t } := by
    simp [unmarshalNpm, h5, h6, h7]
  rw [npmParser_publish_ok req t h1 h2 h3 h4 h5']
  exact ⟨rfl, rfl, rfl, rfl, headerGet_headerSet _ _ _⟩

/-- C1 witness: the spec's example `publish` request with body
`\x7b"dist-tags":\x7b"latest":"2.3.1"\x7d\x7d`. -/
theorem c1_publish_rebuffer_witness :
    hasHitOf (NpmParser wreq1).2 = true
    ∧ mapGet (metaOf (NpmParser wreq1).2).Metadata "extra" = some "2.3.1"
    ∧ readAllB (NpmParser wreq1).1.body
        = (Except.ok wreq1.body.contents, { contents := "", readErr := none })
    ∧ (NpmParser wreq1).1.contentLength = (wreq1.body.contents.length : Int)
    ∧ headerGet (NpmParser wreq1).1.headers "Content-Length" = itoa wreq1.body.contents.length :=
  c1_publish_rebuffer wreq1
    [("dist-tags", Jval.jobj [("latest", Jval.jstr "2.3.1")])]
    [("latest", Jval.jstr "2.3.1")] "2.3.1"
    rfl (by decide) rfl rfl rfl rfl rfl

/-- C2 counterexample: on an npm `publish` request with a malformed
manifest body, `NpmParser` does return a non-nil error, but at that moment
the request body is exhausted (reads as empty), not restored to the
original bytes — refuting the claim's re-readable-state conclusion. -/
theorem c2_malformed_counterexample :
    (NpmParser creq2x).2 = Except.error "invalid JSON"
    ∧ (NpmParser creq2x).1.body.contents = ""
    ∧ creq2x.body.contents ≠ "" :=
  ⟨rfl, rfl, by decide⟩

/-- C2 amended: for every npm `publish` request whose body read succeeds
but whose bytes cannot be decoded as the manifest format, `NpmParser`
returns the decoding error; the request body at that moment is left fully
consumed (a further read cleanly yields zero bytes) — the original bytes
are not restored, and the returned error is the signal of that
consumption. -/
theorem c2_malformed_amended (req : Request) (e : String)
    (h1 : containsSub (headerGet req.headers "User-Agent") "npm" = true)
    (h2 : 0 < (headerGet req.headers "Referer").length)
    (h3 : trimSpaceGo (headOr (goSplitSpace (headerGet req.headers "Referer"))) = "publish")
    (h4 : req.body.readErr = none)
    (h5 : unmarshalNpm req.body.contents = Except.error e) :
    (NpmParser req).2 = Except.error e
    ∧ (NpmParser req).1 = { req with body := { contents := "", readErr := none } }
    ∧ readAllB (NpmParser req).1.body = (Except.ok "", { contents := "", readErr := none }) := by
  rw [npmParser_publish_err req e h1 h2 h3 h4 h5]
  exact ⟨rfl, rfl, rfl⟩

/-- C2 amended witness: a `publish` request whose body is valid JSON of
the wrong shape. -/
theorem c2_malformed_amended_witness :
    (NpmParser wreq2).2 = Except.error "cannot unmarshal document into struct"
    ∧ (NpmParser wreq2).1 = { wreq2 with body := { contents := "", readErr := none } }
    ∧ readAllB (NpmParser wreq2).1.body = (Except.ok "", { contents := "", readErr := none }) :=
  c2_malformed_amended wreq2 "cannot unmarshal document into struct"
    rfl (by decide) rfl rfl rfl

/-- C3: in a chain `[A, B]` where `A` always declines without error (and
without mutating the request) and `B` always hits, `Parse` returns `B`'s
result; in a chain `[B, C]` it returns `B`'s result whatever `C` is —
`C` is never invoked. -/
theorem c3_first_match_wins (A B C : Parser) (req : Request)
    (hA : ∀ r, ∃ m, A r = (r, Except.ok m) ∧ m.HasHit = false)
    (hB : ∀ r, ∃ m, (B r).2 = Except.ok m ∧ m.HasHit = true) :
    Parse [A, B] req = B req ∧ Parse [B, C] req = B req := by
  constructor
  · obtain ⟨mA, hA1, hA2⟩ := hA req
    show parseLoopGo req [] [A, B] = B req
    rw [parseLoopGo, hA1]
    simpa [hA2] using parseLoopGo_hit B hB req [] []
  · show parseLoopGo req [] [B, C] = B req
    exact parseLoopGo_hit B hB req [] [C]

/-- C3 witness: an always-declining detector against the fallback, in
both orders. -/
theorem c3_first_match_wins_witness :
    Parse [wDecl3, HarborParser] wreq3 = HarborParser wreq3
    ∧ Parse [HarborParser, wDecl3] wreq3 = HarborParser wreq3 :=
  c3_first_match_wins wDecl3 HarborParser wDecl3 wreq3
    (fun _ => ⟨{ RegistryType := "", HasHit := false, Metadata := [] }, rfl, rfl⟩)
    (fun _ => ⟨{ RegistryType := registryTypeImage, HasHit := true, Metadata := [] }, rfl, rfl⟩)

/-- C4: a detector error is recorded and the chain continues with the
next detector; on exhaustion without a hit, `Parse` fails with the
aggregate error — the `"no hit"` prefix followed by the recorded
per-detector messages joined with `";"` — and with an empty detail list
(the bare prefix) when no detector erred. -/
theorem c4_error_aggregation (p : Parser) (rest ps : List Parser)
    (req req2 : Request) (e : String) :
    (p req = (req2, Except.error e) →
      Parse (p :: rest) req = parseLoopGo req2 [e] rest)
    ∧ (ps ≠ [] → chainNoHit req ps = true →
      (Parse ps req).2 = Except.error ("no hit" ++ ":" ++ goJoin ";" (chainErrors req ps)))
    ∧ (ps ≠ [] → chainNoHit req ps = true → chainErrors req ps = [] →
      (Parse ps req).2 = Except.error ("no hit" ++ ":")) := by
  refine ⟨?_, ?_, ?_⟩
  · intro hp
    show parseLoopGo req [] (p :: rest) = _
    rw [parseLoopGo, hp]
    exact rfl
  · intro hne hnh
    cases ps with
    | nil => exact absurd rfl hne
    | cons q qs =>
      show (parseLoopGo req [] (q :: qs)).2 = _
      simpa using parseLoopGo_noHit (q :: qs) req [] hnh
  · intro hne hnh herr
    cases ps with
    | nil => exact absurd rfl hne
    | cons q qs =>
      show (parseLoopGo req [] (q :: qs)).2 = _
      have h := parseLoopGo_noHit (q :: qs) req [] hnh
      rw [herr] at h
      rw [h]
      have hs : "no hit" ++ ":" ++ goJoin ";" (([] : List String) ++ []) = "no hit" ++ ":" := by
        decide
      rw [hs]

/-- C4 witness: an erroring detector followed by a declining one, and a
single declining detector (exhaustion without any error). -/
theorem c4_error_aggregation_witness :
    Parse [wBoom4, wDecl4] wreq4 = parseLoopGo wreq4 ["boom"] [wDecl4]
    ∧ (Parse [wBoom4, wDecl4] wreq4).2
        = Except.error ("no hit" ++ ":" ++ goJoin ";" (chainErrors wreq4 [wBoom4, wDecl4]))
    ∧ (Parse [wDecl4] wreq4).2 = Except.error ("no hit" ++ ":") :=
  ⟨(c4_error_aggregation wBoom4 [wDecl4] [wBoom4, wDecl4] wreq4 wreq4 "boom").1 rfl,
   (c4_error_aggregation wBoom4 [wDecl4] [wBoom4, wDecl4] wreq4 wreq4 "boom").2.1
     (List.cons_ne_nil _ _) rfl,
   (c4_error_aggregation wBoom4 [wDecl4] [wDecl4] wreq4 wreq4 "boom").2.2
     (List.cons_ne_nil _ _) rfl rfl⟩

/-- C5: after `Init` (empty chain, then the npm detector, then the
fallback, in that order), a request whose `User-Agent` lacks the `npm`
marker falls through to the fallback and yields a hit with the image
registry kind; and `HarborParser` hits every request with no error. -/
theorem c5_fallback_image (req r : Request)
    (h : containsSub (headerGet req.headers "User-Agent") "npm" = false) :
    Init = ([NpmParser, HarborParser], none)
    ∧ Parse Init.1 req
        = (req, Except.ok { RegistryType := registryTypeImage, HasHit := true, Metadata := [] })
    ∧ HarborParser r
        = (r, Except.ok { RegistryType := registryTypeImage, HasHit := true, Metadata := [] }) := by
  refine ⟨rfl, ?_, rfl⟩
  show parseLoopGo req [] [NpmParser, HarborParser] = _
  rw [parseLoopGo, npmParser_noMarker req h]
  simp [parseLoopGo, HarborParser]

/-- C5 witness: a docker-client request. -/
theorem c5_fallback_image_witness :
    Init = ([NpmParser, HarborParser], none)
    ∧ Parse Init.1 wreq5
        = (wreq5, Except.ok { RegistryType := registryTypeImage, HasHit := true, Metadata := [] })
    ∧ HarborParser wreq5
        = (wreq5, Except.ok { RegistryType := registryTypeImage, HasHit := true, Metadata := [] }) :=
  c5_fallback_image wreq5 wreq5 rfl

/-- C6 counterexample: the claim as stated fails twice.  `creq6a` carries
the npm marker and a non-empty invocation (`"publish"`, a malformed body),
yet `NpmParser` returns an error instead of `matched=true`.  `creq6b`'s
invocation is `"a\tb c"`, whose first *whitespace*-delimited token is
`"a"`, yet the command attribute is `"a\tb"` (the code splits on the space
character only). -/
theorem c6_counterexample :
    containsSub (headerGet creq6a.headers "User-Agent") "npm" = true
    ∧ 0 < (headerGet creq6a.headers "Referer").length
    ∧ (NpmParser creq6a).2 = Except.error "invalid JSON"
    ∧ containsSub (headerGet creq6b.headers "User-Agent") "npm" = true
    ∧ 0 < (headerGet creq6b.headers "Referer").length
    ∧ mapGet (metaOf (NpmParser creq6b).2).Metadata "command" = some "a\tb"
    ∧ "a\tb" ≠ "a" :=
  ⟨rfl, by decide, rfl, rfl, by decide, rfl, by decide⟩

/-- C6 amended: for every request carrying the npm marker and a non-empty
CLI-invocation header, *whose parsed command (the first space-delimited
token, trimmed) is not `"publish"`*, `NpmParser` hits with: `command` that
token, `extra` the trimmed remainder after removing the command prefix,
`path` the full request URL, and `session` the session header's value
(empty when absent). -/
theorem c6_attrs_amended (req : Request)
    (h1 : containsSub (headerGet req.headers "User-Agent") "npm" = true)
    (h2 : 0 < (headerGet req.headers "Referer").length)
    (h3 : trimSpaceGo (headOr (goSplitSpace (headerGet req.headers "Referer"))) ≠ "publish") :
    hasHitOf (NpmParser req).2 = true
    ∧ (metaOf (NpmParser req).2).RegistryType = registryTypeNpm
    ∧ mapGet (metaOf (NpmParser req).2).Metadata "command"
        = some (trimSpaceGo (headOr (goSplitSpace (headerGet req.headers "Referer"))))
    ∧ mapGet (metaOf (NpmParser req).2).Metadata "extra"
        = some (trimSpaceGo (trimPrefixGo (headerGet req.headers "Referer")
            (trimSpaceGo (headOr (goSplitSpace (headerGet req.headers "Referer"))))))
    ∧ mapGet (metaOf (NpmParser req).2).Metadata "path" = some req.url
    ∧ mapGet (metaOf (NpmParser req).2).Metadata "session"
        = some (headerGet req.headers "Npm-Session") := by
  rw [npmParser_nonpublish req h1 h2 h3]
  exact ⟨rfl, rfl, rfl, rfl, rfl, rfl⟩

/-- C6 amended witness: the spec's `"install some-pkg --save"` example. -/
theorem c6_attrs_amended_witness :
    hasHitOf (NpmParser wreq6).2 = true
    ∧ (metaOf (NpmParser wreq6).2).RegistryType = registryTypeNpm
    ∧ mapGet (metaOf (NpmParser wreq6).2).Metadata "command" = some "install"
    ∧ mapGet (metaOf (NpmParser wreq6).2).Metadata "extra" = some "some-pkg --save"
    ∧ mapGet (metaOf (NpmParser wreq6).2).Metadata "path" = some wreq6.url
    ∧ mapGet (metaOf (NpmParser wreq6).2).Metadata "session" = some "s-1" :=
  c6_attrs_amended wreq6 rfl (by decide) (by decide)

/-- C7: a request without the npm marker, and likewise a request with the
marker but an absent or empty CLI-invocation header, makes `NpmParser`
return the zero metadata with `matched=false` and a nil error. -/
theorem c7_nonmatch (req : Request)
    (h : containsSub (headerGet req.headers "User-Agent") "npm" = false
      ∨ headerGet req.headers "Referer" = "") :
    NpmParser req = (req, Except.ok { RegistryType := "", HasHit := false, Metadata := [] })
    ∧ hasHitOf (NpmParser req).2 = false := by
  have hmain :
      NpmParser req = (req, Except.ok { RegistryType := "", HasHit := false, Metadata := [] }) := by
    rcases h with h | h
    · exact npmParser_noMarker req h
    · exact npmParser_emptyCmd req h
  rw [hmain]
  exact ⟨rfl, rfl⟩

/-- C7 witness: a pip-client request, and an npm-marked request with no
invocation header. -/
theorem c7_nonmatch_witness :
    (NpmParser wreq7b = (wreq7b, Except.ok { RegistryType := "", HasHit := false, Metadata := [] })
      ∧ hasHitOf (NpmParser wreq7b).2 = false)
    ∧ (NpmParser wreq7 = (wreq7, Except.ok { RegistryType := "", HasHit := false, Metadata := [] })
      ∧ hasHitOf (NpmParser wreq7).2 = false) :=
  ⟨c7_nonmatch wreq7b (Or.inl rfl), c7_nonmatch wreq7 (Or.inr rfl)⟩

/-- C8: `Parse` on a chain with zero registered detectors fails
immediately with the `"no parsers"` (empty chain) error, for every
request. -/
theorem c8_empty_chain (req : Request) :
    Parse [] req = (req, Except.error "no parsers") := rfl

/-- C9: registering a nil detector fails with the `"nil parser"` error
and leaves the chain (hence its length) unchanged; registering a valid
detector appends it at the end of the ordered list. -/
theorem c9_register (chain : List Parser) (q : Parser) :
    Register chain none = (chain, some "nil parser")
    ∧ ((Register chain none).1).length = chain.length
    ∧ Register chain (some q) = (chain ++ [q], none) :=
  ⟨rfl, rfl, rfl⟩

/-- C10: for a marked npm request with a non-empty invocation whose parsed
command is not `"publish"`, `NpmParser` hits and returns the request
object exactly as received — body, `ContentLength` and headers
untouched (the body is never read). -/
theorem c10_no_mutation (req : Request)
    (h1 : containsSub (headerGet req.headers "User-Agent") "npm" = true)
    (h2 : 0 < (headerGet req.headers "Referer").length)
    (h3 : trimSpaceGo (headOr (goSplitSpace (headerGet req.headers "Referer"))) ≠ "publish") :
    (NpmParser req).1 = req ∧ hasHitOf (NpmParser req).2 = true := by
  rw [npmParser_nonpublish req h1 h2 h3]
  exact ⟨rfl, rfl⟩

/-- C10 witness: an `install` request carrying a body that must stay
unread. -/
theorem c10_no_mutation_witness :
    (NpmParser wreq10).1 = wreq10 ∧ hasHitOf (NpmParser wreq10).2 = true :=
  c10_no_mutation wreq10 rfl (by decide) (by decide)

end RegistryFactory
